import Mathlib

/-!
Verification of the ray-tracing core of `src/renderer/index.ts`.

The renderer works on JavaScript numbers; we embed it over the real
numbers, with `EReal` standing in for the `Infinity` sentinel used by
the sphere intersector and by the `tMax` / `closestT` bookkeeping.
Division follows Lean's convention `x / 0 = 0`; where that convention
diverges from IEEE semantics (NaN) the theorems note the guard used.
-/

namespace Raytracer

/-- The `Vector3` type of the source: three numeric components. -/
@[ext]
structure Vector3 where
  x : ℝ
  y : ℝ
  z : ℝ

/-- Colors are 3-element arrays in the source (`type RGB = [number, number, number]`)
and are manipulated with the same vector helpers, so we reuse `Vector3`. -/
abbrev RGB := Vector3

/-- Model of `dot` from the source: componentwise product summed up. -/
def dot (v1 v2 : Vector3) : ℝ :=
  v1.x * v2.x + v1.y * v2.y + v1.z * v2.z

/-- Model of `cross` from the source. -/
def cross (v1 v2 : Vector3) : Vector3 :=
  ⟨v1.y * v2.z - v1.z * v2.y, v1.z * v2.x - v1.x * v2.z, v1.x * v2.y - v1.y * v2.x⟩

/-- Model of `add` from the source. -/
def add (v1 v2 : Vector3) : Vector3 :=
  ⟨v1.x + v2.x, v1.y + v2.y, v1.z + v2.z⟩

/-- Model of `subtract` from the source. -/
def subtract (v1 v2 : Vector3) : Vector3 :=
  ⟨v1.x - v2.x, v1.y - v2.y, v1.z - v2.z⟩

/-- Model of `multiplyByScalar` from the source. -/
def multiplyByScalar (v1 : Vector3) (a : ℝ) : Vector3 :=
  ⟨v1.x * a, v1.y * a, v1.z * a⟩

/-- Model of `length` from the source: Euclidean norm. -/
noncomputable def length (v1 : Vector3) : ℝ :=
  Real.sqrt (v1.x * v1.x + v1.y * v1.y + v1.z * v1.z)

/-- The `Surface` capability shared by spheres and triangles. -/
structure Surface where
  color : RGB
  specular : ℝ
  reflective : ℝ

/-- Model of `Sphere = Surface & \x7b C, r \x7d`. -/
structure Sphere extends Surface where
  C : Vector3
  r : ℝ

/-- Model of `Triangle = Surface & \x7b a, b, c \x7d`. -/
structure Triangle extends Surface where
  a : Vector3
  b : Vector3
  c : Vector3

/-- The union `Sphere | Triangle` stored in `closestIntersection`. -/
inductive Shape where
  | sphere (s : Sphere)
  | triangle (t : Triangle)

/-- Common `Surface` fields of a shape. -/
def Shape.surface : Shape → Surface
  | .sphere s => s.toSurface
  | .triangle t => t.toSurface

/-- The `Light` tagged union of the source. -/
inductive Light where
  | ambient (intensity : ℝ)
  | point (intensity : ℝ) (position : Vector3)
  | directional (intensity : ℝ) (direction : Vector3)

/-- Intensity of a light, regardless of its kind. -/
def Light.intensity : Light → ℝ
  | .ambient i => i
  | .point i _ => i
  | .directional i _ => i

/-- The `Scene` record, together with the renderer-level constants
`vw`, `vh`, `vd` and `backgroundColor` that the source keeps as fields
of the `Renderer` class. -/
structure Scene where
  spheres : List Sphere
  triangles : List Triangle
  lights : List Light
  vw : ℝ
  vh : ℝ
  vd : ℝ
  backgroundColor : RGB

/-- Result record of `closestIntersection`. -/
@[ext]
structure ClosestIntersection where
  closestIntersection : Option Shape
  closestT : EReal
  closestNormal : Option Vector3

/-- Model of `intersectRaySphere` from the source: solve the quadratic; when the
discriminant is negative report both roots as `Infinity` (here `⊤ : EReal`). -/
noncomputable def intersectRaySphere (origin viewportPoint : Vector3) (sphere : Sphere) :
    EReal × EReal :=
  let co := subtract origin sphere.C
  let a := dot viewportPoint viewportPoint
  let b := dot co viewportPoint * 2
  let c := dot co co - sphere.r * sphere.r
  let discriminant := b * b - 4 * a * c
  if discriminant < 0 then (⊤, ⊤)
  else (((-b + Real.sqrt discriminant) / (2 * a) : ℝ), ((-b - Real.sqrt discriminant) / (2 * a) : ℝ))

/-- Model of `intersectRayTriangle` from the source.  Returns the pair
`[t | null, normal | null]`. -/
noncomputable def intersectRayTriangle (origin viewportPoint : Vector3) (triangle : Triangle) :
    Option ℝ × Option Vector3 :=
  let cr := cross (subtract triangle.b triangle.a) (subtract triangle.c triangle.a)
  let normal := multiplyByScalar cr (1 / length cr)
  let nDotD := dot normal viewportPoint
  if nDotD = 0 then (none, none)
  else
    let AO := subtract origin triangle.a
    let NDotPO := dot normal AO
    let t := -1 * (NDotPO / nDotD)
    if t < 0 then (none, none)
    else
      let P := add origin (multiplyByScalar viewportPoint t)
      let AB := subtract triangle.b triangle.a
      let AC := subtract triangle.c triangle.a
      let AP := subtract P triangle.a
      let dotAB := dot AB AB
      let dotABAC := dot AB AC
      let dotAC := dot AC AC
      let dotAPAB := dot AP AB
      let dotAPAC := dot AP AC
      let denom := dotAB * dotAC - dotABAC * dotABAC
      let alpha := (dotAC * dotAPAB - dotABAC * dotAPAC) / denom
      let beta := (dotAB * dotAPAC - dotABAC * dotAPAB) / denom
      let gamma := 1 - alpha - beta
      if alpha < 0 ∨ alpha > 1 then (none, none)
      else if beta < 0 ∨ beta > 1 then (none, none)
      else if gamma < 0 ∨ gamma > 1 then (none, none)
      else (some t, some normal)

/-- One acceptance test of the sphere loop of `closestIntersection`: the
candidate root `t` replaces the current best when `t > tMin && t < tMax
&& t < closestT`, and the normal is recomputed at the exact hit point. -/
noncomputable def sphereUpd (origin viewportPoint : Vector3) (tMin : ℝ) (tMax : EReal)
    (sphere : Sphere) (st : ClosestIntersection) (t : EReal) : ClosestIntersection :=
  if (tMin : EReal) < t ∧ t < tMax ∧ t < st.closestT then
    let intersection := add origin (multiplyByScalar viewportPoint t.toReal)
    let n := subtract intersection sphere.C
    { closestIntersection := some (Shape.sphere sphere), closestT := t,
      closestNormal := some (multiplyByScalar n (1 / length n)) }
  else st

/-- One iteration of the sphere loop: both roots are tried, `t1` first. -/
noncomputable def sphereStep (origin viewportPoint : Vector3) (tMin : ℝ) (tMax : EReal)
    (st : ClosestIntersection) (sphere : Sphere) : ClosestIntersection :=
  let roots := intersectRaySphere origin viewportPoint sphere
  sphereUpd origin viewportPoint tMin tMax sphere
    (sphereUpd origin viewportPoint tMin tMax sphere st roots.1) roots.2

/-- One iteration of the triangle loop of `closestIntersection`. -/
noncomputable def triangleStep (origin viewportPoint : Vector3) (tMin : ℝ) (tMax : EReal)
    (st : ClosestIntersection) (triangle : Triangle) : ClosestIntersection :=
  match intersectRayTriangle origin viewportPoint triangle with
  | (some t, normal) =>
    if tMin < t ∧ (t : EReal) < tMax ∧ (t : EReal) < st.closestT then
      { closestIntersection := some (Shape.triangle triangle), closestT := (t : EReal),
        closestNormal := normal }
    else st
  | (none, _) => st

/-- Model of `closestIntersection` from the source: linear scan over all spheres,
then all triangles, keeping the strictly smaller accepted `t`. -/
noncomputable def closestIntersection (scene : Scene) (origin viewportPoint : Vector3)
    (tMin : ℝ) (tMax : EReal) : ClosestIntersection :=
  let st := scene.spheres.foldl (sphereStep origin viewportPoint tMin tMax) ⟨none, ⊤, none⟩
  scene.triangles.foldl (triangleStep origin viewportPoint tMin tMax) st

/-- Model of `reflectRay` from the source: `2 (normal · ray) normal - ray`. -/
def reflectRay (ray normal : Vector3) : Vector3 :=
  subtract (multiplyByScalar normal (2 * dot normal ray)) ray

/-- Shared tail of the non-ambient branch of the light loop of
`computeLighting`: shadow test with `tMin = 0.001`, then the diffuse
and (when `s != -1`) specular contributions, added onto the running
intensity `i`. -/
noncomputable def shadeTail (scene : Scene) (point normal v : Vector3) (s : ℝ) (i : ℝ)
    (intensity : ℝ) (L : Vector3) (tMax : EReal) : ℝ :=
  match (closestIntersection scene point L 0.001 tMax).closestIntersection with
  | some _ => i
  | none =>
    let nDotL := dot normal L
    let i1 := if nDotL > 0 then i + intensity * nDotL / (length normal * length L) else i
    if s ≠ -1 then
      let R := reflectRay L normal
      let rDotV := dot R v
      if rDotV > 0 then i1 + intensity * (rDotV / (length R * length v)) ^ s else i1
    else i1

/-- One iteration of the light loop of `computeLighting`. -/
noncomputable def lightStep (scene : Scene) (point normal v : Vector3) (s : ℝ) (i : ℝ) :
    Light → ℝ
  | .ambient intensity => i + intensity
  | .point intensity position =>
    shadeTail scene point normal v s i intensity (subtract position point) 1
  | .directional intensity direction =>
    shadeTail scene point normal v s i intensity direction ⊤

/-- Model of `computeLighting` from the source: fold the light loop over the
scene's lights, starting from base intensity `0`. -/
noncomputable def computeLighting (scene : Scene) (point normal v : Vector3) (s : ℝ) : ℝ :=
  scene.lights.foldl (lightStep scene point normal v s) 0.0

/-- Model of `traceRay` from the source.  The recursion depth is a natural
number; the source's guard `recursionDepth <= 0` becomes `depth = 0`. -/
noncomputable def traceRay (scene : Scene) (origin viewportPoint : Vector3)
    (tMin : ℝ) (tMax : EReal) (depth : ℕ) : RGB :=
  let res := closestIntersection scene origin viewportPoint tMin tMax
  match res.closestIntersection, res.closestNormal with
  | some shape, some normal =>
    let intersection := add origin (multiplyByScalar viewportPoint res.closestT.toReal)
    let negativeViewportPoint := multiplyByScalar viewportPoint (-1)
    let color := multiplyByScalar shape.surface.color
      (computeLighting scene intersection normal negativeViewportPoint shape.surface.specular)
    let r := shape.surface.reflective
    if h : depth = 0 ∨ r ≤ 0 then color
    else
      let nextRay := reflectRay negativeViewportPoint normal
      let reflectedColor := traceRay scene intersection nextRay 0.001 ⊤ (depth - 1)
      add (multiplyByScalar color (1 - r)) (multiplyByScalar reflectedColor r)
  | _, _ => scene.backgroundColor
termination_by depth
decreasing_by
  exact Nat.sub_lt (Nat.pos_of_ne_zero fun h0 => h (Or.inl h0)) Nat.one_pos

/-- Model of `traceRay` instrumented with a gas parameter that decreases by one
on every recursive self-call and aborts with `none` when exhausted:
used to express that the recursion nesting never exceeds `depth`. -/
noncomputable def traceRayGas (scene : Scene) :
    ℕ → Vector3 → Vector3 → ℝ → EReal → ℕ → Option RGB
  | 0, _, _, _, _, _ => none
  | gas + 1, origin, viewportPoint, tMin, tMax, depth =>
    let res := closestIntersection scene origin viewportPoint tMin tMax
    match res.closestIntersection, res.closestNormal with
    | some shape, some normal =>
      let intersection := add origin (multiplyByScalar viewportPoint res.closestT.toReal)
      let negativeViewportPoint := multiplyByScalar viewportPoint (-1)
      let color := multiplyByScalar shape.surface.color
        (computeLighting scene intersection normal negativeViewportPoint shape.surface.specular)
      let r := shape.surface.reflective
      if depth = 0 ∨ r ≤ 0 then some color
      else
        let nextRay := reflectRay negativeViewportPoint normal
        match traceRayGas scene gas intersection nextRay 0.001 ⊤ (depth - 1) with
        | none => none
        | some reflectedColor =>
          some (add (multiplyByScalar color (1 - r)) (multiplyByScalar reflectedColor r))
    | _, _ => some scene.backgroundColor

/-- Model of `canvasToViewport` from the source:
`D = (x * vw / cw, y * vh / ch, vd)`. -/
noncomputable def canvasToViewport (scene : Scene) (cw ch : ℝ) (x y : ℝ) : Vector3 :=
  ⟨x * scene.vw / cw, y * scene.vh / ch, scene.vd⟩

/-- Storing a channel value into the `Uint8ClampedArray` backing
`ImageData` clamps it to `[0, 255]` (integer rounding elided). -/
def u8 (v : ℝ) : ℝ :=
  max 0 (min 255 v)

/-- The byte index targeted by `putPixel`: screen coordinates
`sx = width/2 + cx`, `sy = height/2 - cy`, then
`index = 4 * (sy * width + sx)`. -/
def pixIdx (cw ch cx cy : ℤ) : ℤ :=
  let sx := cw / 2 + cx
  let sy := ch / 2 - cy
  4 * (sy * cw + sx)

/-- Model of `putPixel` from the source: write the four bytes at
`pixIdx cw ch cx cy`; the channels pass through `Math.min (·, 255)` and
the clamped store, the alpha byte is set to `255`. -/
def writePixel (cw ch : ℤ) (data : ℤ → ℝ) (cx cy : ℤ) (col : RGB) : ℤ → ℝ :=
  fun k =>
    if k = pixIdx cw ch cx cy then u8 (min col.x 255)
    else if k = pixIdx cw ch cx cy + 1 then u8 (min col.y 255)
    else if k = pixIdx cw ch cx cy + 2 then u8 (min col.z 255)
    else if k = pixIdx cw ch cx cy + 3 then 255
    else data k

/-- The pixel traversal order of `render`: `x` runs over
`[-cw/2, cw/2)` in the outer loop and `y` over `[-ch/2, ch/2)` in the
inner loop; we take the canvas to be `2 * hw` by `2 * hh`. -/
def pixelList (hw hh : ℕ) : List (ℤ × ℤ) :=
  (List.range (2 * hw)).flatMap fun (i : ℕ) =>
    (List.range (2 * hh)).map fun (j : ℕ) => ((i : ℤ) - (hw : ℤ), (j : ℤ) - (hh : ℤ))

/-- Model of `render` from the source: for every centered pixel `(x, y)`, trace
the ray from the camera origin through `canvasToViewport x y` with
`tMin = 1`, `tMax = Infinity` and the default recursion depth `3`, and
put the pixel.  The `ImageData` buffer starts out all zero. -/
noncomputable def render (scene : Scene) (hw hh : ℕ) : ℤ → ℝ :=
  (pixelList hw hh).foldl
    (fun data p =>
      writePixel (2 * hw) (2 * hh) data p.1 p.2
        (traceRay scene ⟨0, 0, 0⟩
          (canvasToViewport scene (2 * hw) (2 * hh) (p.1 : ℝ) (p.2 : ℝ)) 1 ⊤ 3))
    fun _ => 0

/-- The triangle normal as computed by `intersectRayTriangle`. -/
noncomputable def triangleNormal (triangle : Triangle) : Vector3 :=
  let cr := cross (subtract triangle.b triangle.a) (subtract triangle.c triangle.a)
  multiplyByScalar cr (1 / length cr)

/-- The sphere normal recomputed at the exact hit point in the sphere
branch of `closestIntersection`: `(intersection - center)` normalized. -/
noncomputable def sphereNormalAt (origin viewportPoint : Vector3) (sphere : Sphere) (t : ℝ) :
    Vector3 :=
  let intersection := add origin (multiplyByScalar viewportPoint t)
  let n := subtract intersection sphere.C
  multiplyByScalar n (1 / length n)

/-- The accepted sphere roots of one sphere: the two quadratic roots
filtered through the caller's open-interval range test. -/
noncomputable def sphereCands (origin viewportPoint : Vector3) (tMin : ℝ) (tMax : EReal)
    (sphere : Sphere) : List EReal :=
  [(intersectRaySphere origin viewportPoint sphere).1,
   (intersectRaySphere origin viewportPoint sphere).2].filter
    fun t => decide ((tMin : EReal) < t ∧ t < tMax)

/-- The accepted triangle hit of one triangle, if any, as a
(zero- or one-element) list. -/
noncomputable def triCand (origin viewportPoint : Vector3) (tMin : ℝ) (tMax : EReal)
    (triangle : Triangle) : List EReal :=
  match intersectRayTriangle origin viewportPoint triangle with
  | (some t, _) => if tMin < t ∧ (t : EReal) < tMax then [(t : EReal)] else []
  | (none, _) => []

/-- Every accepted intersection parameter of the scene, spheres first. -/
noncomputable def allCandTs (scene : Scene) (origin viewportPoint : Vector3)
    (tMin : ℝ) (tMax : EReal) : List EReal :=
  scene.spheres.flatMap (sphereCands origin viewportPoint tMin tMax) ++
    scene.triangles.flatMap (triCand origin viewportPoint tMin tMax)

/-- A scene with no primitives, used to exercise the no-hit paths.  Its
constants are those of the source renderer (`vw = vh = vd = 1`, black
background) and its lights are the source's light list. -/
def emptyScene : Scene where
  spheres := []
  triangles := []
  lights := [Light.ambient 0.2, Light.point 0.6 ⟨2, 1, 0⟩, Light.directional 0.2 ⟨1, 4, 4⟩]
  vw := 1
  vh := 1
  vd := 1
  backgroundColor := ⟨0, 0, 0⟩

/-- The first triangle of the source's fixed scene. -/
def sampleTriangle : Triangle where
  color := ⟨0, 255, 255⟩
  specular := 500
  reflective := 0.3
  a := ⟨0, 0.1, 2⟩
  b := ⟨0.2, -0.1, 2⟩
  c := ⟨-0.2, -0.1, 2⟩

/-- A sample sphere (the red sphere of the spec's end-to-end test). -/
def sampleSphere : Sphere where
  color := ⟨255, 0, 0⟩
  specular := -1
  reflective := 0
  C := ⟨0, 0, 3⟩
  r := 1

/-- A zero-area triangle: its three vertices are collinear. -/
def degTriangle : Triangle where
  color := ⟨0, 255, 255⟩
  specular := 500
  reflective := 0.3
  a := ⟨0, 0, 0⟩
  b := ⟨1, 0, 0⟩
  c := ⟨2, 0, 0⟩

/-! ### Basic vector lemmas -/

lemma multiplyByScalar_zero (v : Vector3) : multiplyByScalar v 0 = ⟨0, 0, 0⟩ := by
  simp [multiplyByScalar]

lemma dot_zero_left (v : Vector3) : dot ⟨0, 0, 0⟩ v = 0 := by
  simp [dot]

lemma dot_zero_right (v : Vector3) : dot v ⟨0, 0, 0⟩ = 0 := by
  simp [dot]

lemma dot_smul_left (u v : Vector3) (a : ℝ) :
    dot (multiplyByScalar u a) v = a * dot u v := by
  simp only [dot, multiplyByScalar]; ring

lemma length_eq_sqrt_dot (v : Vector3) : length v = Real.sqrt (dot v v) := rfl

lemma length_nonneg (v : Vector3) : 0 ≤ length v := Real.sqrt_nonneg _

lemma dot_self_nonneg (v : Vector3) : 0 ≤ dot v v := by
  simp only [dot]
  nlinarith [sq_nonneg v.x, sq_nonneg v.y, sq_nonneg v.z]

lemma length_eq_zero_of_dot_self (v : Vector3) (h : dot v v = 0) : length v = 0 := by
  rw [length_eq_sqrt_dot, h, Real.sqrt_zero]

/-- Lagrange's identity for 3-vectors: the barycentric denominator of
`intersectRayTriangle` is the squared norm of the edge cross product. -/
lemma lagrange_identity (u v : Vector3) :
    dot u u * dot v v - dot u v * dot u v = dot (cross u v) (cross u v) := by
  simp only [dot, cross]; ring

/-- Expansion of a vector orthogonal to `cross u v` in the basis `u, v`:
the Cramer solution of the two normal equations recovers the vector. -/
lemma barycentric_combination (u v p : Vector3)
    (hperp : dot (cross u v) p = 0)
    (hdenom : dot u u * dot v v - dot u v * dot u v ≠ 0) :
    p = add
      (multiplyByScalar u
        ((dot v v * dot p u - dot u v * dot p v) / (dot u u * dot v v - dot u v * dot u v)))
      (multiplyByScalar v
        ((dot u u * dot p v - dot u v * dot p u) / (dot u u * dot v v - dot u v * dot u v))) := by
  ext
  · simp only [add, multiplyByScalar]
    field_simp [hdenom]
    simp only [dot, cross] at hperp ⊢
    linear_combination (u.y * v.z - u.z * v.y) * hperp
  · simp only [add, multiplyByScalar]
    field_simp [hdenom]
    simp only [dot, cross] at hperp ⊢
    linear_combination (u.z * v.x - u.x * v.z) * hperp
  · simp only [add, multiplyByScalar]
    field_simp [hdenom]
    simp only [dot, cross] at hperp ⊢
    linear_combination (u.x * v.y - u.y * v.x) * hperp

/-! ### Closed forms of the intersection routines -/

/-- The quadratic coefficient `a = D · D` of `intersectRaySphere`. -/
def sphereA (viewportPoint : Vector3) : ℝ :=
  dot viewportPoint viewportPoint

/-- The quadratic coefficient `b = 2 (O - C) · D` of `intersectRaySphere`. -/
def sphereB (origin viewportPoint : Vector3) (sphere : Sphere) : ℝ :=
  dot (subtract origin sphere.C) viewportPoint * 2

/-- The quadratic coefficient `c = |O - C|² - r²` of `intersectRaySphere`. -/
def sphereCcoef (origin : Vector3) (sphere : Sphere) : ℝ :=
  dot (subtract origin sphere.C) (subtract origin sphere.C) - sphere.r * sphere.r

/-- The discriminant `b² - 4 a c` of `intersectRaySphere`. -/
def sphereDisc (origin viewportPoint : Vector3) (sphere : Sphere) : ℝ :=
  sphereB origin viewportPoint sphere * sphereB origin viewportPoint sphere -
    4 * sphereA viewportPoint * sphereCcoef origin sphere

/-- Model of `intersectRaySphere`, written with the named coefficients. -/
lemma intersectRaySphere_eq (origin viewportPoint : Vector3) (sphere : Sphere) :
    intersectRaySphere origin viewportPoint sphere =
      if sphereDisc origin viewportPoint sphere < 0 then (⊤, ⊤)
      else
        (((((-sphereB origin viewportPoint sphere +
            Real.sqrt (sphereDisc origin viewportPoint sphere)) /
              (2 * sphereA viewportPoint) : ℝ) : EReal),
          ((((-sphereB origin viewportPoint sphere -
            Real.sqrt (sphereDisc origin viewportPoint sphere)) /
              (2 * sphereA viewportPoint) : ℝ) : EReal)))) :=
  rfl

/-- The plane-equation parameter `t = -(N·(O-A) / N·D)` of `intersectRayTriangle`. -/
noncomputable def triangleT (origin viewportPoint : Vector3) (triangle : Triangle) : ℝ :=
  -1 * (dot (triangleNormal triangle) (subtract origin triangle.a) /
    dot (triangleNormal triangle) viewportPoint)

/-- The barycentric coordinate `alpha` computed by `intersectRayTriangle`. -/
noncomputable def triAlpha (origin viewportPoint : Vector3) (triangle : Triangle) : ℝ :=
  let AB := subtract triangle.b triangle.a
  let AC := subtract triangle.c triangle.a
  let AP := subtract
    (add origin (multiplyByScalar viewportPoint (triangleT origin viewportPoint triangle)))
    triangle.a
  (dot AC AC * dot AP AB - dot AB AC * dot AP AC) /
    (dot AB AB * dot AC AC - dot AB AC * dot AB AC)

/-- The barycentric coordinate `beta` computed by `intersectRayTriangle`. -/
noncomputable def triBeta (origin viewportPoint : Vector3) (triangle : Triangle) : ℝ :=
  let AB := subtract triangle.b triangle.a
  let AC := subtract triangle.c triangle.a
  let AP := subtract
    (add origin (multiplyByScalar viewportPoint (triangleT origin viewportPoint triangle)))
    triangle.a
  (dot AB AB * dot AP AC - dot AB AC * dot AP AB) /
    (dot AB AB * dot AC AC - dot AB AC * dot AB AC)

/-- Model of `intersectRayTriangle`, written with the named intermediate values. -/
lemma intersectRayTriangle_eq (origin viewportPoint : Vector3) (triangle : Triangle) :
    intersectRayTriangle origin viewportPoint triangle =
      if dot (triangleNormal triangle) viewportPoint = 0 then (none, none)
      else if triangleT origin viewportPoint triangle < 0 then (none, none)
      else if triAlpha origin viewportPoint triangle < 0 ∨
          triAlpha origin viewportPoint triangle > 1 then (none, none)
      else if triBeta origin viewportPoint triangle < 0 ∨
          triBeta origin viewportPoint triangle > 1 then (none, none)
      else if 1 - triAlpha origin viewportPoint triangle - triBeta origin viewportPoint triangle < 0 ∨
          1 - triAlpha origin viewportPoint triangle - triBeta origin viewportPoint triangle > 1 then
        (none, none)
      else (some (triangleT origin viewportPoint triangle), some (triangleNormal triangle)) :=
  rfl

/-! ### Claim C3 -/

/-- Claim C3: `intersectRaySphere` solves the quadratic with `a = D·D`,
`b = 2 (O-C)·D`, `c = |O-C|² - r²`; a negative discriminant yields the
pair `(Infinity, Infinity)`, otherwise the two quadratic-formula roots;
the caller's acceptance test is an open interval, so a root equal to
`tMin` or to `tMax` is never accepted; and a unit-direction ray aimed at
the sphere's center yields the roots `d + r` and `d - r`, where `d` is
the distance to the center. -/
theorem claim_C3_intersectRaySphere (origin viewportPoint : Vector3) (sphere : Sphere) :
    (sphereDisc origin viewportPoint sphere < 0 →
      intersectRaySphere origin viewportPoint sphere = (⊤, ⊤)) ∧
    (0 ≤ sphereDisc origin viewportPoint sphere →
      intersectRaySphere origin viewportPoint sphere =
        (((((-sphereB origin viewportPoint sphere +
            Real.sqrt (sphereDisc origin viewportPoint sphere)) /
              (2 * sphereA viewportPoint) : ℝ) : EReal),
          ((((-sphereB origin viewportPoint sphere -
            Real.sqrt (sphereDisc origin viewportPoint sphere)) /
              (2 * sphereA viewportPoint) : ℝ) : EReal))))) ∧
    (∀ (tMin : ℝ) (tMax : EReal) (st : ClosestIntersection) (t : EReal),
      t = (tMin : EReal) ∨ t = tMax →
      sphereUpd origin viewportPoint tMin tMax sphere st t = st) ∧
    (∀ d : ℝ, 0 ≤ d → 0 ≤ sphere.r → length viewportPoint = 1 →
      subtract sphere.C origin = multiplyByScalar viewportPoint d →
      intersectRaySphere origin viewportPoint sphere =
        (((d + sphere.r : ℝ) : EReal), ((d - sphere.r : ℝ) : EReal))) := by
  refine ⟨fun h => ?_, fun h => ?_, fun tMin tMax st t ht => ?_, fun d hd hr hD hC => ?_⟩
  · rw [intersectRaySphere_eq, if_pos h]
  · rw [intersectRaySphere_eq, if_neg (not_lt.mpr h)]
  · rw [sphereUpd]
    rcases ht with ht | ht
    · rw [if_neg]
      rintro ⟨h1, -, -⟩
      rw [ht] at h1
      exact lt_irrefl _ h1
    · rw [if_neg]
      rintro ⟨-, h2, -⟩
      rw [ht] at h2
      exact lt_irrefl _ h2
  · have ha : dot viewportPoint viewportPoint = 1 := by
      have h0 := dot_self_nonneg viewportPoint
      have h1 : Real.sqrt (dot viewportPoint viewportPoint) = 1 := hD
      nlinarith [Real.sq_sqrt h0, h1]
    simp only [subtract, multiplyByScalar, Vector3.mk.injEq] at hC
    obtain ⟨hx, hy, hz⟩ := hC
    have ha' : viewportPoint.x * viewportPoint.x + viewportPoint.y * viewportPoint.y +
        viewportPoint.z * viewportPoint.z = 1 := by simpa [dot] using ha
    have hb : sphereB origin viewportPoint sphere = -(2 * d) := by
      simp only [sphereB, dot, subtract]
      linear_combination (-2 * viewportPoint.x) * hx + (-2 * viewportPoint.y) * hy +
        (-2 * viewportPoint.z) * hz + (-2 * d) * ha'
    have hc : sphereCcoef origin sphere = d * d - sphere.r * sphere.r := by
      simp only [sphereCcoef, dot, subtract]
      linear_combination
        (-(origin.x - sphere.C.x) + viewportPoint.x * d) * hx +
        (-(origin.y - sphere.C.y) + viewportPoint.y * d) * hy +
        (-(origin.z - sphere.C.z) + viewportPoint.z * d) * hz + (d * d) * ha'
    have hA : sphereA viewportPoint = 1 := ha
    have hdisc : sphereDisc origin viewportPoint sphere = (2 * sphere.r) ^ 2 := by
      rw [sphereDisc, hb, hc, hA]; ring
    have hsq : Real.sqrt (sphereDisc origin viewportPoint sphere) = 2 * sphere.r := by
      rw [hdisc, Real.sqrt_sq (by linarith)]
    rw [intersectRaySphere_eq, if_neg (by rw [hdisc]; exact not_lt.mpr (sq_nonneg _)), hsq, hb, hA]
    have e1 : (-(-(2 * d)) + 2 * sphere.r) / (2 * 1) = d + sphere.r := by ring
    have e2 : (-(-(2 * d)) - 2 * sphere.r) / (2 * 1) = d - sphere.r := by ring
    rw [e1, e2]

/-! ### Claim C4 -/

lemma dot_add_right (n u w : Vector3) : dot n (add u w) = dot n u + dot n w := by
  simp only [dot, add]; ring

lemma dot_smul_right (n v : Vector3) (a : ℝ) :
    dot n (multiplyByScalar v a) = a * dot n v := by
  simp only [dot, multiplyByScalar]; ring

lemma subtract_add_comm (origin w a : Vector3) :
    subtract (add origin w) a = add (subtract origin a) w := by
  ext <;> simp only [subtract, add] <;> ring

/-- Claim C4: `intersectRayTriangle` reports no hit for a direction
parallel to the plane and for a negative plane parameter `t`; every
accepted hit carries the plane normal, a nonnegative `t`, and
barycentric coordinates `alpha, beta, gamma` of the hit point that sum
to `1` and each lie in `[0, 1]`. -/
theorem claim_C4_intersectRayTriangle (origin viewportPoint : Vector3) (triangle : Triangle) :
    (dot (triangleNormal triangle) viewportPoint = 0 →
      intersectRayTriangle origin viewportPoint triangle = (none, none)) ∧
    (triangleT origin viewportPoint triangle < 0 →
      intersectRayTriangle origin viewportPoint triangle = (none, none)) ∧
    (∀ (t : ℝ) (n : Option Vector3),
      intersectRayTriangle origin viewportPoint triangle = (some t, n) →
      t = triangleT origin viewportPoint triangle ∧ n = some (triangleNormal triangle) ∧
      0 ≤ t ∧
      ∃ alpha beta gamma : ℝ, alpha + beta + gamma = 1 ∧
        0 ≤ alpha ∧ alpha ≤ 1 ∧ 0 ≤ beta ∧ beta ≤ 1 ∧ 0 ≤ gamma ∧ gamma ≤ 1 ∧
        add origin (multiplyByScalar viewportPoint t) =
          add (add (multiplyByScalar triangle.a gamma) (multiplyByScalar triangle.b alpha))
            (multiplyByScalar triangle.c beta)) := by
  refine ⟨fun h => ?_, fun h => ?_, fun t n h => ?_⟩
  · rw [intersectRayTriangle_eq, if_pos h]
  · rw [intersectRayTriangle_eq]
    by_cases h1 : dot (triangleNormal triangle) viewportPoint = 0
    · rw [if_pos h1]
    · rw [if_neg h1, if_pos h]
  · rw [intersectRayTriangle_eq] at h
    by_cases h1 : dot (triangleNormal triangle) viewportPoint = 0
    · rw [if_pos h1] at h; exact absurd h (by simp)
    rw [if_neg h1] at h
    by_cases h2 : triangleT origin viewportPoint triangle < 0
    · rw [if_pos h2] at h; exact absurd h (by simp)
    rw [if_neg h2] at h
    by_cases h3 : triAlpha origin viewportPoint triangle < 0 ∨
        triAlpha origin viewportPoint triangle > 1
    · rw [if_pos h3] at h; exact absurd h (by simp)
    rw [if_neg h3] at h
    by_cases h4 : triBeta origin viewportPoint triangle < 0 ∨
        triBeta origin viewportPoint triangle > 1
    · rw [if_pos h4] at h; exact absurd h (by simp)
    rw [if_neg h4] at h
    by_cases h5 : 1 - triAlpha origin viewportPoint triangle -
          triBeta origin viewportPoint triangle < 0 ∨
        1 - triAlpha origin viewportPoint triangle - triBeta origin viewportPoint triangle > 1
    · rw [if_pos h5] at h; exact absurd h (by simp)
    rw [if_neg h5] at h
    rw [Prod.mk.injEq] at h
    obtain ⟨ht, hn⟩ := h
    have ht' : t = triangleT origin viewportPoint triangle := (Option.some.inj ht).symm
    push_neg at h2 h3 h4 h5
    subst ht'
    have hlen : length (cross (subtract triangle.b triangle.a)
        (subtract triangle.c triangle.a)) ≠ 0 := by
      intro h0
      apply h1
      have hz : triangleNormal triangle = ⟨0, 0, 0⟩ := by
        simp only [triangleNormal]
        rw [h0]
        simp [multiplyByScalar]
      rw [hz, dot_zero_left]
    have hcr : dot (cross (subtract triangle.b triangle.a) (subtract triangle.c triangle.a))
        (cross (subtract triangle.b triangle.a) (subtract triangle.c triangle.a)) ≠ 0 :=
      fun h0 => hlen (length_eq_zero_of_dot_self _ h0)
    have hdenom : dot (subtract triangle.b triangle.a) (subtract triangle.b triangle.a) *
          dot (subtract triangle.c triangle.a) (subtract triangle.c triangle.a) -
        dot (subtract triangle.b triangle.a) (subtract triangle.c triangle.a) *
          dot (subtract triangle.b triangle.a) (subtract triangle.c triangle.a) ≠ 0 := by
      rw [lagrange_identity]; exact hcr
    have hNAP : dot (triangleNormal triangle)
        (subtract (add origin (multiplyByScalar viewportPoint
          (triangleT origin viewportPoint triangle))) triangle.a) = 0 := by
      rw [subtract_add_comm, dot_add_right, dot_smul_right]
      simp only [triangleT]
      field_simp
    have hperp : dot (cross (subtract triangle.b triangle.a) (subtract triangle.c triangle.a))
        (subtract (add origin (multiplyByScalar viewportPoint
          (triangleT origin viewportPoint triangle))) triangle.a) = 0 := by
      have hsm := hNAP
      simp only [triangleNormal] at hsm
      rw [dot_smul_left] at hsm
      rcases mul_eq_zero.mp hsm with h0 | h0
      · exact absurd h0 (one_div_ne_zero hlen)
      · exact h0
    have hcomb := barycentric_combination (subtract triangle.b triangle.a)
      (subtract triangle.c triangle.a)
      (subtract (add origin (multiplyByScalar viewportPoint
        (triangleT origin viewportPoint triangle))) triangle.a) hperp hdenom
    simp only [add, subtract, multiplyByScalar, Vector3.mk.injEq] at hcomb
    obtain ⟨e1, e2, e3⟩ := hcomb
    refine ⟨rfl, hn.symm, h2,
      triAlpha origin viewportPoint triangle, triBeta origin viewportPoint triangle,
      1 - triAlpha origin viewportPoint triangle - triBeta origin viewportPoint triangle,
      by ring, h3.1, h3.2, h4.1, h4.2, h5.1, h5.2, ?_⟩
    ext
    · simp only [triAlpha, triBeta, add, subtract, multiplyByScalar]
      linear_combination e1
    · simp only [triAlpha, triBeta, add, subtract, multiplyByScalar]
      linear_combination e2
    · simp only [triAlpha, triBeta, add, subtract, multiplyByScalar]
      linear_combination e3

/-! ### Claims C8 and C7 -/

lemma triangleNormal_of_degenerate (triangle : Triangle)
    (hdeg : length (cross (subtract triangle.b triangle.a)
      (subtract triangle.c triangle.a)) = 0) :
    triangleNormal triangle = ⟨0, 0, 0⟩ := by
  simp only [triangleNormal]
  rw [hdeg]
  simp [multiplyByScalar]

/-- Claim C8: a zero-area triangle (edge cross product of length zero)
never produces a hit from `intersectRayTriangle`, and the triangle loop
of `closestIntersection` leaves its state unchanged on it. -/
theorem claim_C8_degenerate_triangle (origin viewportPoint : Vector3) (triangle : Triangle)
    (tMin : ℝ) (tMax : EReal) (st : ClosestIntersection)
    (hdeg : length (cross (subtract triangle.b triangle.a)
      (subtract triangle.c triangle.a)) = 0) :
    intersectRayTriangle origin viewportPoint triangle = (none, none) ∧
    triangleStep origin viewportPoint tMin tMax st triangle = st := by
  have h0 : dot (triangleNormal triangle) viewportPoint = 0 := by
    rw [triangleNormal_of_degenerate triangle hdeg, dot_zero_left]
  have h1 : intersectRayTriangle origin viewportPoint triangle = (none, none) := by
    rw [intersectRayTriangle_eq, if_pos h0]
  refine ⟨h1, ?_⟩
  rw [triangleStep, h1]

/-- Claim C7 counterexample: with a zero direction vector the sphere
quadratic has `a = D·D = 0`, yet `intersectRaySphere` does not return
the no-intersection sentinel `(Infinity, Infinity)`: the `a == 0` case
is not explicitly checked (the quadratic formula is evaluated anyway). -/
theorem claim_C7_counterexample :
    sphereA (⟨0, 0, 0⟩ : Vector3) = 0 ∧
    intersectRaySphere ⟨0, 0, 0⟩ ⟨0, 0, 0⟩ sampleSphere ≠ (⊤, ⊤) := by
  constructor
  · simp [sphereA, dot]
  · rw [intersectRaySphere_eq]
    have hdisc : sphereDisc ⟨0, 0, 0⟩ ⟨0, 0, 0⟩ sampleSphere = 0 := by
      simp [sphereDisc, sphereA, sphereB, sphereCcoef, dot, subtract, sampleSphere]
    rw [hdisc]
    norm_num

/-- A fold whose step function never changes the accumulator is the
identity. -/
lemma foldl_fixed_of_id {α β : Type} (f : α → β → α) (hf : ∀ a b, f a b = a) :
    ∀ (l : List β) (a : α), l.foldl f a = a
  | [], _ => rfl
  | b :: l, a => by rw [List.foldl_cons, hf, foldl_fixed_of_id f hf l]

lemma intersectRaySphere_zero_dir (origin : Vector3) (sphere : Sphere) :
    intersectRaySphere origin ⟨0, 0, 0⟩ sphere = (((0 : ℝ) : EReal), ((0 : ℝ) : EReal)) := by
  have ha : sphereA (⟨0, 0, 0⟩ : Vector3) = 0 := by simp [sphereA, dot]
  have hb : sphereB origin ⟨0, 0, 0⟩ sphere = 0 := by simp [sphereB, dot]
  have hdisc : sphereDisc origin ⟨0, 0, 0⟩ sphere = 0 := by
    rw [sphereDisc, ha, hb]; ring
  rw [intersectRaySphere_eq, hdisc, ha, hb]
  norm_num

lemma sphereUpd_not_accepted (origin viewportPoint : Vector3) (tMin : ℝ) (tMax : EReal)
    (sphere : Sphere) (st : ClosestIntersection) (t : EReal)
    (h : ¬ (tMin : EReal) < t) :
    sphereUpd origin viewportPoint tMin tMax sphere st t = st := by
  rw [sphereUpd, if_neg]
  rintro ⟨h1, -, -⟩
  exact h h1

/-- Claim C7, amended: the parallel ray-plane case is the only division
guard that is explicitly checked; the `a == 0` sphere case (possible
only for a zero direction) and the `denom == 0` barycentric case
(possible only for a degenerate triangle) are not checked, but neither
ever produces an accepted intersection: a zero-direction ray yields no
hit at all whenever `0 < tMin` (all call sites use `tMin >= 0.001`), and
a zero barycentric denominator forces a zero-area triangle, which the
plane test rejects. -/
theorem claim_C7_division_guards :
    (∀ (origin viewportPoint : Vector3) (triangle : Triangle),
      dot (triangleNormal triangle) viewportPoint = 0 →
      intersectRayTriangle origin viewportPoint triangle = (none, none)) ∧
    (∀ (origin viewportPoint : Vector3) (triangle : Triangle),
      dot (subtract triangle.b triangle.a) (subtract triangle.b triangle.a) *
          dot (subtract triangle.c triangle.a) (subtract triangle.c triangle.a) -
        dot (subtract triangle.b triangle.a) (subtract triangle.c triangle.a) *
          dot (subtract triangle.b triangle.a) (subtract triangle.c triangle.a) = 0 →
      intersectRayTriangle origin viewportPoint triangle = (none, none)) ∧
    (∀ (scene : Scene) (origin : Vector3) (tMin : ℝ) (tMax : EReal), 0 < tMin →
      closestIntersection scene origin ⟨0, 0, 0⟩ tMin tMax = ⟨none, ⊤, none⟩) := by
  refine ⟨fun origin viewportPoint triangle h => ?_, fun origin viewportPoint triangle h => ?_,
    fun scene origin tMin tMax htMin => ?_⟩
  · rw [intersectRayTriangle_eq, if_pos h]
  · have hdeg : length (cross (subtract triangle.b triangle.a)
        (subtract triangle.c triangle.a)) = 0 := by
      rw [lagrange_identity] at h
      exact length_eq_zero_of_dot_self _ h
    have h0 : dot (triangleNormal triangle) viewportPoint = 0 := by
      rw [triangleNormal_of_degenerate triangle hdeg, dot_zero_left]
    rw [intersectRayTriangle_eq, if_pos h0]
  · have hstep : ∀ (st : ClosestIntersection) (sphere : Sphere),
        sphereStep origin ⟨0, 0, 0⟩ tMin tMax st sphere = st := by
      intro st sphere
      have hroots := intersectRaySphere_zero_dir origin sphere
      have hno : ¬ (tMin : EReal) < (((0 : ℝ) : EReal)) := by
        rw [EReal.coe_lt_coe_iff]
        exact not_lt.mpr htMin.le
      rw [sphereStep, hroots]
      rw [sphereUpd_not_accepted _ _ _ _ _ _ _ hno, sphereUpd_not_accepted _ _ _ _ _ _ _ hno]
    have htri : ∀ (st : ClosestIntersection) (triangle : Triangle),
        triangleStep origin ⟨0, 0, 0⟩ tMin tMax st triangle = st := by
      intro st triangle
      have h0 : dot (triangleNormal triangle) (⟨0, 0, 0⟩ : Vector3) = 0 := dot_zero_right _
      have h1 : intersectRayTriangle origin ⟨0, 0, 0⟩ triangle = (none, none) := by
        rw [intersectRayTriangle_eq, if_pos h0]
      rw [triangleStep, h1]
    rw [closestIntersection]
    rw [foldl_fixed_of_id _ hstep, foldl_fixed_of_id _ htri]

/-! ### Claim C2 -/

lemma sphereUpd_closestT (origin viewportPoint : Vector3) (tMin : ℝ) (tMax : EReal)
    (sphere : Sphere) (st : ClosestIntersection) (t : EReal) :
    (sphereUpd origin viewportPoint tMin tMax sphere st t).closestT =
      if (tMin : EReal) < t ∧ t < tMax then min st.closestT t else st.closestT := by
  rw [sphereUpd]
  by_cases hin : (tMin : EReal) < t ∧ t < tMax
  · by_cases hlt : t < st.closestT
    · rw [if_pos ⟨hin.1, hin.2, hlt⟩, if_pos hin]
      exact (min_eq_right hlt.le).symm
    · rw [if_neg (by rintro ⟨-, -, hcontra⟩; exact hlt hcontra), if_pos hin]
      exact (min_eq_left (not_lt.mp hlt)).symm
  · rw [if_neg (by rintro ⟨hc1, hc2, -⟩; exact hin ⟨hc1, hc2⟩), if_neg hin]

lemma sphereStep_closestT (origin viewportPoint : Vector3) (tMin : ℝ) (tMax : EReal)
    (st : ClosestIntersection) (sphere : Sphere) :
    (sphereStep origin viewportPoint tMin tMax st sphere).closestT =
      (sphereCands origin viewportPoint tMin tMax sphere).foldl min st.closestT := by
  simp only [sphereStep, sphereCands, sphereUpd_closestT, List.filter_cons, List.filter_nil,
    decide_eq_true_eq]
  rcases Classical.em ((tMin : EReal) < (intersectRaySphere origin viewportPoint sphere).1 ∧
      (intersectRaySphere origin viewportPoint sphere).1 < tMax) with h1 | h1 <;>
    rcases Classical.em ((tMin : EReal) < (intersectRaySphere origin viewportPoint sphere).2 ∧
      (intersectRaySphere origin viewportPoint sphere).2 < tMax) with h2 | h2 <;>
      simp [h1, h2]

lemma triangleStep_closestT (origin viewportPoint : Vector3) (tMin : ℝ) (tMax : EReal)
    (st : ClosestIntersection) (triangle : Triangle) :
    (triangleStep origin viewportPoint tMin tMax st triangle).closestT =
      (triCand origin viewportPoint tMin tMax triangle).foldl min st.closestT := by
  rw [triangleStep, triCand]
  rcases h : intersectRayTriangle origin viewportPoint triangle with ⟨topt, nopt⟩
  cases topt with
  | none => rfl
  | some t =>
    dsimp only
    rcases Classical.em (tMin < t ∧ (t : EReal) < tMax) with hin | hin
    · by_cases hlt : (t : EReal) < st.closestT
      · rw [if_pos ⟨hin.1, hin.2, hlt⟩, if_pos hin]
        simp [min_eq_right hlt.le]
      · rw [if_neg (by rintro ⟨-, -, hcontra⟩; exact hlt hcontra), if_pos hin]
        simp [min_eq_left (not_lt.mp hlt)]
    · rw [if_neg (by rintro ⟨hc1, hc2, -⟩; exact hin ⟨hc1, hc2⟩), if_neg hin]
      rfl

lemma spheres_fold_closestT (origin viewportPoint : Vector3) (tMin : ℝ) (tMax : EReal) :
    ∀ (sphs : List Sphere) (st : ClosestIntersection),
      (sphs.foldl (sphereStep origin viewportPoint tMin tMax) st).closestT =
        (sphs.flatMap (sphereCands origin viewportPoint tMin tMax)).foldl min st.closestT
  | [], st => rfl
  | sphere :: sphs, st => by
    rw [List.foldl_cons, List.flatMap_cons, List.foldl_append,
      spheres_fold_closestT origin viewportPoint tMin tMax sphs _, sphereStep_closestT]

lemma triangles_fold_closestT (origin viewportPoint : Vector3) (tMin : ℝ) (tMax : EReal) :
    ∀ (tris : List Triangle) (st : ClosestIntersection),
      (tris.foldl (triangleStep origin viewportPoint tMin tMax) st).closestT =
        (tris.flatMap (triCand origin viewportPoint tMin tMax)).foldl min st.closestT
  | [], st => rfl
  | triangle :: tris, st => by
    rw [List.foldl_cons, List.flatMap_cons, List.foldl_append,
      triangles_fold_closestT origin viewportPoint tMin tMax tris _, triangleStep_closestT]

/-- Invariant of the `closestIntersection` scan: the state is either
still the initial no-hit record, or a consistent record for one of the
scene's primitives whose accepted parameter and recomputed normal it
carries. -/
def GoodState (scene : Scene) (origin viewportPoint : Vector3) (tMin : ℝ) (tMax : EReal)
    (st : ClosestIntersection) : Prop :=
  (st.closestIntersection = none ∧ st.closestT = ⊤ ∧ st.closestNormal = none) ∨
  (∃ sphere : Sphere, sphere ∈ scene.spheres ∧
    st.closestIntersection = some (Shape.sphere sphere) ∧
    ∃ tr : ℝ, st.closestT = (tr : EReal) ∧
      ((tr : EReal) = (intersectRaySphere origin viewportPoint sphere).1 ∨
       (tr : EReal) = (intersectRaySphere origin viewportPoint sphere).2) ∧
      tMin < tr ∧ (tr : EReal) < tMax ∧
      st.closestNormal = some (sphereNormalAt origin viewportPoint sphere tr)) ∨
  (∃ triangle : Triangle, triangle ∈ scene.triangles ∧
    st.closestIntersection = some (Shape.triangle triangle) ∧
    ∃ tr : ℝ, st.closestT = (tr : EReal) ∧
      (intersectRayTriangle origin viewportPoint triangle).1 = some tr ∧
      tMin < tr ∧ (tr : EReal) < tMax ∧
      st.closestNormal = (intersectRayTriangle origin viewportPoint triangle).2)

lemma sphereUpd_good (scene : Scene) (origin viewportPoint : Vector3) (tMin : ℝ) (tMax : EReal)
    (sphere : Sphere) (st : ClosestIntersection) (t : EReal)
    (hmem : sphere ∈ scene.spheres)
    (hroot : t = (intersectRaySphere origin viewportPoint sphere).1 ∨
      t = (intersectRaySphere origin viewportPoint sphere).2)
    (hst : GoodState scene origin viewportPoint tMin tMax st) :
    GoodState scene origin viewportPoint tMin tMax
      (sphereUpd origin viewportPoint tMin tMax sphere st t) := by
  rw [sphereUpd]
  split_ifs with h
  · obtain ⟨h1, h2, -⟩ := h
    have hne_top : t ≠ ⊤ := (h2.trans_le le_top).ne
    have hne_bot : t ≠ ⊥ := ((EReal.bot_lt_coe tMin).trans h1).ne'
    have hcoe : ((t.toReal : ℝ) : EReal) = t := EReal.coe_toReal hne_top hne_bot
    refine Or.inr (Or.inl ⟨sphere, hmem, rfl, t.toReal, hcoe.symm, ?_, ?_, ?_, rfl⟩)
    · rw [hcoe]; exact hroot
    · rw [← EReal.coe_lt_coe_iff, hcoe]; exact h1
    · rw [hcoe]; exact h2
  · exact hst

lemma sphereStep_good (scene : Scene) (origin viewportPoint : Vector3) (tMin : ℝ) (tMax : EReal)
    (st : ClosestIntersection) (sphere : Sphere)
    (hmem : sphere ∈ scene.spheres)
    (hst : GoodState scene origin viewportPoint tMin tMax st) :
    GoodState scene origin viewportPoint tMin tMax
      (sphereStep origin viewportPoint tMin tMax st sphere) := by
  rw [sphereStep]
  exact sphereUpd_good scene origin viewportPoint tMin tMax sphere _ _ hmem (Or.inr rfl)
    (sphereUpd_good scene origin viewportPoint tMin tMax sphere st _ hmem (Or.inl rfl) hst)

lemma triangleStep_good (scene : Scene) (origin viewportPoint : Vector3) (tMin : ℝ)
    (tMax : EReal) (st : ClosestIntersection) (triangle : Triangle)
    (hmem : triangle ∈ scene.triangles)
    (hst : GoodState scene origin viewportPoint tMin tMax st) :
    GoodState scene origin viewportPoint tMin tMax
      (triangleStep origin viewportPoint tMin tMax st triangle) := by
  rw [triangleStep]
  rcases h : intersectRayTriangle origin viewportPoint triangle with ⟨topt, nopt⟩
  cases topt with
  | none => exact hst
  | some t =>
    dsimp only
    split_ifs with hc
    · exact Or.inr (Or.inr ⟨triangle, hmem, rfl, t, rfl, by rw [h], hc.1, hc.2.1, by rw [h]⟩)
    · exact hst

lemma spheres_fold_good (scene : Scene) (origin viewportPoint : Vector3) (tMin : ℝ)
    (tMax : EReal) :
    ∀ (sphs : List Sphere), (∀ s ∈ sphs, s ∈ scene.spheres) →
      ∀ (st : ClosestIntersection), GoodState scene origin viewportPoint tMin tMax st →
      GoodState scene origin viewportPoint tMin tMax
        (sphs.foldl (sphereStep origin viewportPoint tMin tMax) st)
  | [], _, _, hst => hst
  | sphere :: sphs, hmem, st, hst => by
    rw [List.foldl_cons]
    exact spheres_fold_good scene origin viewportPoint tMin tMax sphs
      (fun s hs => hmem s (List.mem_cons_of_mem _ hs)) _
      (sphereStep_good scene origin viewportPoint tMin tMax st sphere
        (hmem sphere (List.mem_cons_self _ _)) hst)

lemma triangles_fold_good (scene : Scene) (origin viewportPoint : Vector3) (tMin : ℝ)
    (tMax : EReal) :
    ∀ (tris : List Triangle), (∀ t ∈ tris, t ∈ scene.triangles) →
      ∀ (st : ClosestIntersection), GoodState scene origin viewportPoint tMin tMax st →
      GoodState scene origin viewportPoint tMin tMax
        (tris.foldl (triangleStep origin viewportPoint tMin tMax) st)
  | [], _, _, hst => hst
  | triangle :: tris, hmem, st, hst => by
    rw [List.foldl_cons]
    exact triangles_fold_good scene origin viewportPoint tMin tMax tris
      (fun t ht => hmem t (List.mem_cons_of_mem _ ht)) _
      (triangleStep_good scene origin viewportPoint tMin tMax st triangle
        (hmem triangle (List.mem_cons_self _ _)) hst)

lemma closestIntersection_good (scene : Scene) (origin viewportPoint : Vector3) (tMin : ℝ)
    (tMax : EReal) :
    GoodState scene origin viewportPoint tMin tMax
      (closestIntersection scene origin viewportPoint tMin tMax) := by
  rw [closestIntersection]
  exact triangles_fold_good scene origin viewportPoint tMin tMax scene.triangles
    (fun _ ht => ht) _
    (spheres_fold_good scene origin viewportPoint tMin tMax scene.spheres (fun _ hs => hs) _
      (Or.inl ⟨rfl, rfl, rfl⟩))

lemma closestIntersection_closestT (scene : Scene) (origin viewportPoint : Vector3)
    (tMin : ℝ) (tMax : EReal) :
    (closestIntersection scene origin viewportPoint tMin tMax).closestT =
      (allCandTs scene origin viewportPoint tMin tMax).foldl min ⊤ := by
  rw [closestIntersection, allCandTs, List.foldl_append, triangles_fold_closestT,
    spheres_fold_closestT]

/-- Claim C2: `closestIntersection` returns as `closestT` the global
minimum over all accepted sphere roots and triangle hits strictly
inside `(tMin, tMax)` (`Infinity` when there are none, together with
null surface and normal); a returned sphere carries the outward normal
recomputed at the exact hit point and a returned triangle carries the
plane normal from the intersection test. -/
theorem claim_C2_closestIntersection (scene : Scene) (origin viewportPoint : Vector3)
    (tMin : ℝ) (tMax : EReal) :
    (closestIntersection scene origin viewportPoint tMin tMax).closestT =
      (allCandTs scene origin viewportPoint tMin tMax).foldl min ⊤ ∧
    (allCandTs scene origin viewportPoint tMin tMax = [] →
      closestIntersection scene origin viewportPoint tMin tMax = ⟨none, ⊤, none⟩) ∧
    ((closestIntersection scene origin viewportPoint tMin tMax).closestIntersection = none →
      closestIntersection scene origin viewportPoint tMin tMax = ⟨none, ⊤, none⟩) ∧
    (∀ sphere : Sphere,
      (closestIntersection scene origin viewportPoint tMin tMax).closestIntersection =
        some (Shape.sphere sphere) →
      sphere ∈ scene.spheres ∧ ∃ tr : ℝ,
        (closestIntersection scene origin viewportPoint tMin tMax).closestT = (tr : EReal) ∧
        ((tr : EReal) = (intersectRaySphere origin viewportPoint sphere).1 ∨
         (tr : EReal) = (intersectRaySphere origin viewportPoint sphere).2) ∧
        tMin < tr ∧ (tr : EReal) < tMax ∧
        (closestIntersection scene origin viewportPoint tMin tMax).closestNormal =
          some (sphereNormalAt origin viewportPoint sphere tr)) ∧
    (∀ triangle : Triangle,
      (closestIntersection scene origin viewportPoint tMin tMax).closestIntersection =
        some (Shape.triangle triangle) →
      triangle ∈ scene.triangles ∧ ∃ tr : ℝ,
        (closestIntersection scene origin viewportPoint tMin tMax).closestT = (tr : EReal) ∧
        (intersectRayTriangle origin viewportPoint triangle).1 = some tr ∧
        tMin < tr ∧ (tr : EReal) < tMax ∧
        (closestIntersection scene origin viewportPoint tMin tMax).closestNormal =
          (intersectRayTriangle origin viewportPoint triangle).2) := by
  have hG := closestIntersection_good scene origin viewportPoint tMin tMax
  have hT := closestIntersection_closestT scene origin viewportPoint tMin tMax
  refine ⟨hT, fun hnil => ?_, fun hnone => ?_, fun sphere hs => ?_, fun triangle ht => ?_⟩
  · have hTop : (closestIntersection scene origin viewportPoint tMin tMax).closestT = ⊤ := by
      rw [hT, hnil]; rfl
    rcases hG with ⟨f1, f2, f3⟩ | ⟨sphere, -, -, tr, htr, -⟩ | ⟨triangle, -, -, tr, htr, -⟩
    · exact ClosestIntersection.ext f1 f2 f3
    · exact absurd (htr.symm.trans hTop) (EReal.coe_ne_top tr)
    · exact absurd (htr.symm.trans hTop) (EReal.coe_ne_top tr)
  · rcases hG with ⟨f1, f2, f3⟩ | ⟨sphere, -, heq, -⟩ | ⟨triangle, -, heq, -⟩
    · exact ClosestIntersection.ext f1 f2 f3
    · rw [heq] at hnone; exact absurd hnone (by simp)
    · rw [heq] at hnone; exact absurd hnone (by simp)
  · rcases hG with ⟨f1, -⟩ | ⟨sphere', hmem, heq, tr, hrest⟩ | ⟨triangle', -, heq, -⟩
    · rw [f1] at hs; exact absurd hs (by simp)
    · rw [heq] at hs
      have : sphere' = sphere := by
        have := Option.some.inj hs
        cases this
        rfl
      subst this
      exact ⟨hmem, tr, hrest⟩
    · rw [heq] at hs
      exact absurd (Option.some.inj hs) (by simp)
  · rcases hG with ⟨f1, -⟩ | ⟨sphere', -, heq, -⟩ | ⟨triangle', hmem, heq, tr, hrest⟩
    · rw [f1] at ht; exact absurd ht (by simp)
    · rw [heq] at ht
      exact absurd (Option.some.inj ht) (by simp)
    · rw [heq] at ht
      have : triangle' = triangle := by
        have := Option.some.inj ht
        cases this
        rfl
      subst this
      exact ⟨hmem, tr, hrest⟩

/-! ### Claim C1 -/

/-- Claim C1: `traceRay` returns the background color when the
intersection engine reports no hit; otherwise the local color is the
surface color scaled per channel by the lighting intensity, returned
unmodified when `depth <= 0` or `reflective <= 0`, and otherwise
blended as `local*(1-r) + reflected*r` with the reflected color traced
recursively from the hit point along the reflected ray with
`tMin = 0.001`, `tMax = Infinity` and `depth - 1`. -/
theorem claim_C1_traceRay (scene : Scene) (origin viewportPoint : Vector3) (tMin : ℝ)
    (tMax : EReal) (depth : ℕ) :
    ((closestIntersection scene origin viewportPoint tMin tMax).closestIntersection = none →
      traceRay scene origin viewportPoint tMin tMax depth = scene.backgroundColor) ∧
    (∀ (shape : Shape) (t : EReal) (n : Vector3),
      closestIntersection scene origin viewportPoint tMin tMax = ⟨some shape, t, some n⟩ →
      (depth = 0 ∨ shape.surface.reflective ≤ 0 →
        traceRay scene origin viewportPoint tMin tMax depth =
          multiplyByScalar shape.surface.color
            (computeLighting scene (add origin (multiplyByScalar viewportPoint t.toReal)) n
              (multiplyByScalar viewportPoint (-1)) shape.surface.specular)) ∧
      (¬(depth = 0 ∨ shape.surface.reflective ≤ 0) →
        traceRay scene origin viewportPoint tMin tMax depth =
          add
            (multiplyByScalar
              (multiplyByScalar shape.surface.color
                (computeLighting scene
                  (add origin (multiplyByScalar viewportPoint t.toReal)) n
                  (multiplyByScalar viewportPoint (-1)) shape.surface.specular))
              (1 - shape.surface.reflective))
            (multiplyByScalar
              (traceRay scene (add origin (multiplyByScalar viewportPoint t.toReal))
                (reflectRay (multiplyByScalar viewportPoint (-1)) n) 0.001 ⊤ (depth - 1))
              shape.surface.reflective))) := by
  constructor
  · intro hnone
    rw [traceRay]
    split
    · simp_all
    · rfl
  · intro shape t n hres
    have h1 : (closestIntersection scene origin viewportPoint tMin tMax).closestIntersection =
        some shape := by rw [hres]
    have h2 : (closestIntersection scene origin viewportPoint tMin tMax).closestNormal =
        some n := by rw [hres]
    have h3 : (closestIntersection scene origin viewportPoint tMin tMax).closestT = t := by
      rw [hres]
    constructor
    · intro hstop
      rw [traceRay]
      split
      case _ shape' normal' heq1 heq2 =>
        rw [h1] at heq1
        rw [h2] at heq2
        cases Option.some.inj heq1
        cases Option.some.inj heq2
        rw [h3, dif_pos hstop]
      case _ hfall =>
        exact absurd trivial (by simpa using hfall shape n h1 h2)
    · intro hgo
      rw [traceRay]
      split
      case _ shape' normal' heq1 heq2 =>
        rw [h1] at heq1
        rw [h2] at heq2
        cases Option.some.inj heq1
        cases Option.some.inj heq2
        rw [h3, dif_neg hgo]
      case _ hfall =>
        exact absurd trivial (by simpa using hfall shape n h1 h2)

/-! ### Claim C9 -/

/-- Claim C9: the recursion of `traceRay` is bounded by the depth
argument: instrumenting every recursive self-call with a strictly
decreasing gas counter never exhausts the gas as long as `gas > depth`,
so the recursion terminates within the configured depth limit for every
scene and every ray. -/
theorem claim_C9_traceRay_terminates (scene : Scene) :
    ∀ (gas : ℕ) (origin viewportPoint : Vector3) (tMin : ℝ) (tMax : EReal) (depth : ℕ),
      depth < gas →
      traceRayGas scene gas origin viewportPoint tMin tMax depth =
        some (traceRay scene origin viewportPoint tMin tMax depth) := by
  intro gas
  induction gas with
  | zero => intro _ _ _ _ depth h; exact absurd h (Nat.not_lt_zero depth)
  | succ g ih =>
    intro origin viewportPoint tMin tMax depth h
    rw [traceRayGas, traceRay]
    split
    case _ shape normal heq1 heq2 =>
      by_cases hstop : depth = 0 ∨ shape.surface.reflective ≤ 0
      · rw [if_pos hstop, dif_pos hstop]
      · rw [if_neg hstop, dif_neg hstop]
        have hd : depth - 1 < g := by
          have : depth ≠ 0 := fun h0 => hstop (Or.inl h0)
          omega
        simp only [ih _ _ _ _ _ hd]
    case _ hfall =>
      rfl

/-! ### Claims C5 and C10 -/

/-- Per-light contribution as the specification words it: zero when the
shadow query along `L` (with `tMin = 0.001` and the given `tMax`)
reports any hit, else the guarded diffuse term plus the guarded
specular term. -/
noncomputable def nonAmbientTerm (scene : Scene) (point normal v : Vector3) (s : ℝ)
    (intensity : ℝ) (L : Vector3) (tMax : EReal) : ℝ :=
  match (closestIntersection scene point L 0.001 tMax).closestIntersection with
  | some _ => 0
  | none =>
    (if dot normal L > 0 then intensity * dot normal L / (length normal * length L) else 0) +
    (if s ≠ -1 ∧ dot (reflectRay L normal) v > 0 then
      intensity *
        (dot (reflectRay L normal) v / (length (reflectRay L normal) * length v)) ^ s
    else 0)

/-- Contribution of a single light to `computeLighting`, as the
specification words it: ambient intensity unconditionally; point lights
use `L = position - point` with shadow range `(0.001, 1)`; directional
lights use the fixed direction with shadow range `(0.001, Infinity)`. -/
noncomputable def lightTerm (scene : Scene) (point normal v : Vector3) (s : ℝ) : Light → ℝ
  | .ambient intensity => intensity
  | .point intensity position =>
    nonAmbientTerm scene point normal v s intensity (subtract position point) 1
  | .directional intensity direction =>
    nonAmbientTerm scene point normal v s intensity direction ⊤

lemma shadeTail_eq (scene : Scene) (point normal v : Vector3) (s i intensity : ℝ)
    (L : Vector3) (tMax : EReal) :
    shadeTail scene point normal v s i intensity L tMax =
      i + nonAmbientTerm scene point normal v s intensity L tMax := by
  rw [shadeTail, nonAmbientTerm]
  cases hc : (closestIntersection scene point L 0.001 tMax).closestIntersection with
  | some shape => simp
  | none =>
    dsimp only
    by_cases hs : s = -1 <;>
      by_cases hr : dot (reflectRay L normal) v > 0 <;>
        by_cases hd : dot normal L > 0 <;>
          simp [hs, hr, hd] <;> ring

lemma lightStep_eq (scene : Scene) (point normal v : Vector3) (s i : ℝ) (light : Light) :
    lightStep scene point normal v s i light =
      i + lightTerm scene point normal v s light := by
  cases light with
  | ambient intensity => rfl
  | point intensity position => exact shadeTail_eq scene point normal v s i intensity _ 1
  | directional intensity direction => exact shadeTail_eq scene point normal v s i intensity _ ⊤

lemma foldl_lightStep_eq (scene : Scene) (point normal v : Vector3) (s : ℝ) :
    ∀ (ls : List Light) (i : ℝ),
      ls.foldl (lightStep scene point normal v s) i =
        i + (ls.map (lightTerm scene point normal v s)).sum
  | [], i => by simp
  | l :: ls, i => by
    rw [List.foldl_cons, foldl_lightStep_eq scene point normal v s ls _, lightStep_eq,
      List.map_cons, List.sum_cons]
    ring

/-- Claim C5: `computeLighting` is the sum over all lights of the
specified per-light contributions: ambient intensity unconditionally;
for point and directional lights the shadow-tested (ranges
`(0.001, 1)` and `(0.001, Infinity)` respectively), guarded diffuse and
specular terms; a shadowed light contributes nothing; the result is the
bare, unclamped sum. -/
theorem claim_C5_computeLighting (scene : Scene) (point normal v : Vector3) (s : ℝ) :
    computeLighting scene point normal v s =
      (scene.lights.map (lightTerm scene point normal v s)).sum := by
  rw [computeLighting, foldl_lightStep_eq]
  norm_num

lemma nonAmbientTerm_nonneg (scene : Scene) (point normal v : Vector3) (s intensity : ℝ)
    (L : Vector3) (tMax : EReal) (h : 0 ≤ intensity) :
    0 ≤ nonAmbientTerm scene point normal v s intensity L tMax := by
  rw [nonAmbientTerm]
  cases hc : (closestIntersection scene point L 0.001 tMax).closestIntersection with
  | some shape => exact le_refl 0
  | none =>
    dsimp only
    apply add_nonneg
    · split_ifs with hd
      · exact div_nonneg (mul_nonneg h hd.le)
          (mul_nonneg (length_nonneg _) (length_nonneg _))
      · exact le_refl 0
    · split_ifs with hs
      · exact mul_nonneg h (Real.rpow_nonneg
          (div_nonneg hs.2.le (mul_nonneg (length_nonneg _) (length_nonneg _))) s)
      · exact le_refl 0

lemma lightTerm_nonneg (scene : Scene) (point normal v : Vector3) (s : ℝ) (light : Light)
    (h : 0 ≤ light.intensity) : 0 ≤ lightTerm scene point normal v s light := by
  cases light with
  | ambient intensity => exact h
  | point intensity position => exact nonAmbientTerm_nonneg scene point normal v s intensity _ 1 h
  | directional intensity direction =>
    exact nonAmbientTerm_nonneg scene point normal v s intensity _ ⊤ h

/-- Claim C10: when every light of the scene has nonnegative intensity,
`computeLighting` is nonnegative — the ambient terms are added as-is
and the diffuse and specular terms are added only under their strict
positivity guards, so no summand is negative. -/
theorem claim_C10_computeLighting_nonneg (scene : Scene) (point normal v : Vector3) (s : ℝ)
    (h : ∀ light ∈ scene.lights, 0 ≤ light.intensity) :
    0 ≤ computeLighting scene point normal v s := by
  rw [computeLighting, foldl_lightStep_eq]
  have hsum : 0 ≤ (scene.lights.map (lightTerm scene point normal v s)).sum := by
    apply List.sum_nonneg
    intro x hx
    obtain ⟨light, hl, rfl⟩ := List.mem_map.mp hx
    exact lightTerm_nonneg scene point normal v s light (h light hl)
  have h0 : (0.0 : ℝ) = 0 := by norm_num
  rw [h0, zero_add]
  exact hsum

/-! ### Claim C6 -/

lemma writePixel_at0 (cw ch : ℤ) (data : ℤ → ℝ) (cx cy : ℤ) (col : RGB) :
    writePixel cw ch data cx cy col (pixIdx cw ch cx cy) = u8 (min col.x 255) := by
  rw [writePixel]
  rw [if_pos rfl]

lemma writePixel_at1 (cw ch : ℤ) (data : ℤ → ℝ) (cx cy : ℤ) (col : RGB) :
    writePixel cw ch data cx cy col (pixIdx cw ch cx cy + 1) = u8 (min col.y 255) := by
  rw [writePixel]
  rw [if_neg (by omega), if_pos rfl]

lemma writePixel_at2 (cw ch : ℤ) (data : ℤ → ℝ) (cx cy : ℤ) (col : RGB) :
    writePixel cw ch data cx cy col (pixIdx cw ch cx cy + 2) = u8 (min col.z 255) := by
  rw [writePixel]
  rw [if_neg (by omega), if_neg (by omega), if_pos rfl]

lemma writePixel_at3 (cw ch : ℤ) (data : ℤ → ℝ) (cx cy : ℤ) (col : RGB) :
    writePixel cw ch data cx cy col (pixIdx cw ch cx cy + 3) = 255 := by
  rw [writePixel]
  rw [if_neg (by omega), if_neg (by omega), if_neg (by omega), if_pos rfl]

lemma writePixel_other (cw ch : ℤ) (data : ℤ → ℝ) (cx cy : ℤ) (col : RGB) (k : ℤ)
    (h : ∀ j : ℤ, 0 ≤ j → j < 4 → k ≠ pixIdx cw ch cx cy + j) :
    writePixel cw ch data cx cy col k = data k := by
  have h0 := h 0 (by norm_num) (by norm_num)
  have h1 := h 1 (by norm_num) (by norm_num)
  have h2 := h 2 (by norm_num) (by norm_num)
  have h3 := h 3 (by norm_num) (by norm_num)
  rw [writePixel]
  rw [if_neg (by omega), if_neg h1, if_neg h2, if_neg h3]

lemma foldl_writePixel_other (cw ch : ℤ) (C : ℤ × ℤ → RGB) :
    ∀ (l : List (ℤ × ℤ)) (data : ℤ → ℝ) (k : ℤ),
      (∀ q ∈ l, ∀ j : ℤ, 0 ≤ j → j < 4 → k ≠ pixIdx cw ch q.1 q.2 + j) →
      l.foldl (fun d p => writePixel cw ch d p.1 p.2 (C p)) data k = data k
  | [], _, _, _ => rfl
  | q :: l, data, k, h => by
    rw [List.foldl_cons,
      foldl_writePixel_other cw ch C l _ k
        (fun q' hq' => h q' (List.mem_cons_of_mem _ hq')),
      writePixel_other cw ch data q.1 q.2 _ k (h q (List.mem_cons_self _ _))]

lemma foldl_writePixel_get (cw ch : ℤ) (C : ℤ × ℤ → RGB) :
    ∀ (l : List (ℤ × ℤ)) (data : ℤ → ℝ) (p : ℤ × ℤ),
      p ∈ l →
      (∀ q ∈ l, q ≠ p → ∀ j j' : ℤ, 0 ≤ j → j < 4 → 0 ≤ j' → j' < 4 →
        pixIdx cw ch q.1 q.2 + j ≠ pixIdx cw ch p.1 p.2 + j') →
      l.foldl (fun d q => writePixel cw ch d q.1 q.2 (C q)) data (pixIdx cw ch p.1 p.2) =
          u8 (min (C p).x 255) ∧
      l.foldl (fun d q => writePixel cw ch d q.1 q.2 (C q)) data (pixIdx cw ch p.1 p.2 + 1) =
          u8 (min (C p).y 255) ∧
      l.foldl (fun d q => writePixel cw ch d q.1 q.2 (C q)) data (pixIdx cw ch p.1 p.2 + 2) =
          u8 (min (C p).z 255) ∧
      l.foldl (fun d q => writePixel cw ch d q.1 q.2 (C q)) data (pixIdx cw ch p.1 p.2 + 3) =
          255
  | [], _, p, hp, _ => absurd hp (List.not_mem_nil p)
  | q :: l, data, p, hp, hdisj => by
    by_cases hpl : p ∈ l
    · rw [List.foldl_cons]
      exact foldl_writePixel_get cw ch C l _ p hpl
        (fun q' hq' => hdisj q' (List.mem_cons_of_mem _ hq'))
    · have hpq : q = p := by
        rcases List.mem_cons.mp hp with heq | hmem
        · exact heq.symm
        · exact absurd hmem hpl
      subst hpq
      rw [List.foldl_cons]
      have hpres : ∀ j' : ℤ, 0 ≤ j' → j' < 4 →
          l.foldl (fun d r => writePixel cw ch d r.1 r.2 (C r))
            (writePixel cw ch data q.1 q.2 (C q)) (pixIdx cw ch q.1 q.2 + j') =
          writePixel cw ch data q.1 q.2 (C q) (pixIdx cw ch q.1 q.2 + j') := by
        intro j' hj0 hj4
        apply foldl_writePixel_other
        intro q' hq' j hj0' hj4'
        have hne : q' ≠ q := fun heq => hpl (heq ▸ hq')
        exact (hdisj q' (List.mem_cons_of_mem _ hq') hne j j' hj0' hj4' hj0 hj4).symm
      refine ⟨?_, ?_, ?_, ?_⟩
      · have := hpres 0 (by norm_num) (by norm_num)
        rw [add_zero] at this
        rw [this, writePixel_at0]
      · rw [hpres 1 (by norm_num) (by norm_num), writePixel_at1]
      · rw [hpres 2 (by norm_num) (by norm_num), writePixel_at2]
      · rw [hpres 3 (by norm_num) (by norm_num), writePixel_at3]

lemma mem_pixelList (hw hh : ℕ) (x y : ℤ) (hx1 : -(hw : ℤ) ≤ x) (hx2 : x < hw)
    (hy1 : -(hh : ℤ) ≤ y) (hy2 : y < hh) : (x, y) ∈ pixelList hw hh := by
  rw [pixelList]
  apply List.mem_flatMap.mpr
  refine ⟨(x + hw).toNat,
    List.mem_range.mpr (show (x + (hw : ℤ)).toNat < 2 * hw by omega), ?_⟩
  apply List.mem_map.mpr
  refine ⟨(y + hh).toNat,
    List.mem_range.mpr (show (y + (hh : ℤ)).toNat < 2 * hh by omega), ?_⟩
  rw [Prod.mk.injEq]
  constructor <;> omega

lemma pixelList_bounds (hw hh : ℕ) (q : ℤ × ℤ) (hq : q ∈ pixelList hw hh) :
    -(hw : ℤ) ≤ q.1 ∧ q.1 < hw ∧ -(hh : ℤ) ≤ q.2 ∧ q.2 < hh := by
  rw [pixelList] at hq
  obtain ⟨i, hi, hq2⟩ := List.mem_flatMap.mp hq
  obtain ⟨j, hj, heq⟩ := List.mem_map.mp hq2
  rw [List.mem_range] at hi hj
  subst heq
  refine ⟨?_, ?_, ?_, ?_⟩ <;> dsimp only <;> omega

lemma pixIdx_canvas (hw hh : ℕ) (a b : ℤ) :
    pixIdx (2 * hw) (2 * hh) a b = 4 * (((hh : ℤ) - b) * (2 * hw) + ((hw : ℤ) + a)) := by
  rw [pixIdx]
  have e1 : (2 * (hw : ℤ)) / 2 = hw := by omega
  have e2 : (2 * (hh : ℤ)) / 2 = hh := by omega
  rw [e1, e2]

lemma pixIdx_inj (hw hh : ℕ) (x y x' y' : ℤ)
    (hx1 : -(hw : ℤ) ≤ x) (hx2 : x < hw) (hy1 : -(hh : ℤ) ≤ y) (hy2 : y < hh)
    (hx1' : -(hw : ℤ) ≤ x') (hx2' : x' < hw) (hy1' : -(hh : ℤ) ≤ y') (hy2' : y' < hh)
    (hne : (x, y) ≠ (x', y')) (j j' : ℤ)
    (hj0 : 0 ≤ j) (hj4 : j < 4) (hj0' : 0 ≤ j') (hj4' : j' < 4) :
    pixIdx (2 * hw) (2 * hh) x y + j ≠ pixIdx (2 * hw) (2 * hh) x' y' + j' := by
  rw [pixIdx_canvas, pixIdx_canvas]
  intro heq
  set A := ((hh : ℤ) - y) * (2 * hw) + ((hw : ℤ) + x) with hA
  set B := ((hh : ℤ) - y') * (2 * hw) + ((hw : ℤ) + x') with hB
  have hAB : A = B := by omega
  have hk : x' - x = (y' - y) * (2 * (hw : ℤ)) := by
    rw [hA, hB] at hAB
    linear_combination -hAB
  have h2hw : (0 : ℤ) < 2 * hw := by omega
  have hy : y' = y := by
    by_contra hyy
    have h1 : 1 ≤ |y' - y| := by
      rcases lt_or_gt_of_ne (fun heq' : y' = y => hyy heq') with hlt | hgt
      · rw [abs_of_neg (by omega)]; omega
      · rw [abs_of_pos (by omega)]; omega
    have hge : 2 * (hw : ℤ) ≤ |x' - x| := by
      calc (2 * (hw : ℤ)) = 1 * (2 * hw) := by ring
        _ ≤ |y' - y| * (2 * hw) := mul_le_mul_of_nonneg_right h1 h2hw.le
        _ = |(y' - y) * (2 * hw)| := by rw [abs_mul, abs_of_nonneg h2hw.le]
        _ = |x' - x| := by rw [hk]
    have hlt : |x' - x| < 2 * (hw : ℤ) := by rw [abs_lt]; omega
    omega
  have hx : x' = x := by
    rw [hy] at hk
    omega
  exact hne (by rw [Prod.mk.injEq]; exact ⟨hx.symm, hy.symm⟩)

/-- Claim C6: the render loop maps the centered pixel `(x, y)` to the
viewport direction `(x*vw/cw, y*vh/ch, vd)`, traces with `tMin = 1`,
`tMax = Infinity`, `depth = 3` from the origin, and stores the result
at buffer index `4*((height/2 - y)*width + (width/2 + x))` with the
color channels clamped to `[0, 255]` and the alpha byte forced to
`255`, for a `2*hw` by `2*hh` canvas. -/
theorem claim_C6_render (scene : Scene) (hw hh : ℕ) (x y : ℤ)
    (hx1 : -(hw : ℤ) ≤ x) (hx2 : x < hw) (hy1 : -(hh : ℤ) ≤ y) (hy2 : y < hh) :
    (canvasToViewport scene (2 * hw) (2 * hh) x y =
      ⟨(x : ℝ) * scene.vw / (2 * hw), (y : ℝ) * scene.vh / (2 * hh), scene.vd⟩) ∧
    render scene hw hh (4 * (((hh : ℤ) - y) * (2 * hw) + ((hw : ℤ) + x))) =
      u8 (min (traceRay scene ⟨0, 0, 0⟩
        (canvasToViewport scene (2 * hw) (2 * hh) x y) 1 ⊤ 3).x 255) ∧
    render scene hw hh (4 * (((hh : ℤ) - y) * (2 * hw) + ((hw : ℤ) + x)) + 1) =
      u8 (min (traceRay scene ⟨0, 0, 0⟩
        (canvasToViewport scene (2 * hw) (2 * hh) x y) 1 ⊤ 3).y 255) ∧
    render scene hw hh (4 * (((hh : ℤ) - y) * (2 * hw) + ((hw : ℤ) + x)) + 2) =
      u8 (min (traceRay scene ⟨0, 0, 0⟩
        (canvasToViewport scene (2 * hw) (2 * hh) x y) 1 ⊤ 3).z 255) ∧
    render scene hw hh (4 * (((hh : ℤ) - y) * (2 * hw) + ((hw : ℤ) + x)) + 3) = 255 := by
  have hmem := mem_pixelList hw hh x y hx1 hx2 hy1 hy2
  have hdisj : ∀ q ∈ pixelList hw hh, q ≠ (x, y) →
      ∀ j j' : ℤ, 0 ≤ j → j < 4 → 0 ≤ j' → j' < 4 →
      pixIdx (2 * hw) (2 * hh) q.1 q.2 + j ≠ pixIdx (2 * hw) (2 * hh) x y + j' := by
    intro q hq hne j j' hj0 hj4 hj0' hj4'
    obtain ⟨hq1, hq2, hq3, hq4⟩ := pixelList_bounds hw hh q hq
    exact pixIdx_inj hw hh q.1 q.2 x y hq1 hq2 hq3 hq4 hx1 hx2 hy1 hy2
      (fun heq => hne (by rw [← heq])) j j' hj0 hj4 hj0' hj4'
  have hkey := foldl_writePixel_get (2 * hw) (2 * hh)
    (fun p => traceRay scene ⟨0, 0, 0⟩
      (canvasToViewport scene (2 * hw) (2 * hh) (p.1 : ℝ) (p.2 : ℝ)) 1 ⊤ 3)
    (pixelList hw hh) (fun _ => 0) (x, y) hmem hdisj
  have hidx := pixIdx_canvas hw hh x y
  refine ⟨rfl, ?_, ?_, ?_, ?_⟩
  · rw [render, ← hidx]; exact hkey.1
  · rw [render, ← hidx]; exact hkey.2.1
  · rw [render, ← hidx]; exact hkey.2.2.1
  · rw [render, ← hidx]; exact hkey.2.2.2

/-! ### Witnesses -/

/-- Witness for C1: in the empty scene every ray misses and `traceRay`
returns the background color. -/
theorem claim_C1_witness :
    traceRay emptyScene ⟨0, 0, 0⟩ ⟨0, 0, 1⟩ 1 ⊤ 3 = emptyScene.backgroundColor :=
  (claim_C1_traceRay emptyScene ⟨0, 0, 0⟩ ⟨0, 0, 1⟩ 1 ⊤ 3).1 rfl

/-- Witness for C2: in the empty scene the candidate list is empty and
the engine returns the no-hit record. -/
theorem claim_C2_witness :
    closestIntersection emptyScene ⟨0, 0, 0⟩ ⟨0, 0, 1⟩ 1 ⊤ = ⟨none, ⊤, none⟩ :=
  (claim_C2_closestIntersection emptyScene ⟨0, 0, 0⟩ ⟨0, 0, 1⟩ 1 ⊤).2.1 rfl

/-- Witness for C3: the unit ray from the origin through the center of
`sampleSphere` (distance 3, radius 1) yields the roots `3 + 1` and
`3 - 1`. -/
theorem claim_C3_witness :
    intersectRaySphere ⟨0, 0, 0⟩ ⟨0, 0, 1⟩ sampleSphere =
      (((3 + sampleSphere.r : ℝ) : EReal), ((3 - sampleSphere.r : ℝ) : EReal)) :=
  (claim_C3_intersectRaySphere ⟨0, 0, 0⟩ ⟨0, 0, 1⟩ sampleSphere).2.2.2 3
    (by norm_num)
    (by norm_num [sampleSphere])
    (by
      rw [length, show ((⟨0, 0, 1⟩ : Vector3)).x = 0 from rfl]
      norm_num)
    (by
      rw [sampleSphere]
      ext <;> simp [subtract, multiplyByScalar])

/-- Witness for C4: a ray parallel to the plane of `sampleTriangle`
reports no hit. -/
theorem claim_C4_witness :
    intersectRayTriangle ⟨0, 0, 0⟩ ⟨1, 0, 0⟩ sampleTriangle = (none, none) :=
  (claim_C4_intersectRayTriangle ⟨0, 0, 0⟩ ⟨1, 0, 0⟩ sampleTriangle).1
    (by
      rw [triangleNormal, sampleTriangle]
      simp [cross, subtract, multiplyByScalar, dot])

/-- Witness for C6: the alpha byte of the pixel `(0, 0)` of a 2-by-2
render of the empty scene is `255`. -/
theorem claim_C6_witness :
    render emptyScene 1 1
      (4 * ((((1 : ℕ) : ℤ) - 0) * (2 * ((1 : ℕ) : ℤ)) + (((1 : ℕ) : ℤ) + 0)) + 3) = 255 :=
  (claim_C6_render emptyScene 1 1 0 0 (by norm_num) (by norm_num) (by norm_num)
    (by norm_num)).2.2.2.2

/-- Witness for C7 (amended): a zero-direction ray with `tMin = 1`
produces no intersection at all. -/
theorem claim_C7_witness :
    closestIntersection emptyScene ⟨0, 0, 0⟩ ⟨0, 0, 0⟩ 1 ⊤ = ⟨none, ⊤, none⟩ :=
  claim_C7_division_guards.2.2 emptyScene ⟨0, 0, 0⟩ 1 ⊤ (by norm_num)

/-- Witness for C8: the collinear triangle `degTriangle` is never hit
and never updates the scan state. -/
theorem claim_C8_witness :
    intersectRayTriangle ⟨0, 0, 0⟩ ⟨0, 0, 1⟩ degTriangle = (none, none) ∧
    triangleStep ⟨0, 0, 0⟩ ⟨0, 0, 1⟩ 1 ⊤ ⟨none, ⊤, none⟩ degTriangle = ⟨none, ⊤, none⟩ :=
  claim_C8_degenerate_triangle ⟨0, 0, 0⟩ ⟨0, 0, 1⟩ degTriangle 1 ⊤ ⟨none, ⊤, none⟩
    (by
      rw [degTriangle]
      simp [cross, subtract, length])

/-- Witness for C9: with gas `4` the instrumented tracer completes a
depth-3 trace of the empty scene. -/
theorem claim_C9_witness :
    traceRayGas emptyScene 4 ⟨0, 0, 0⟩ ⟨0, 0, 1⟩ 1 ⊤ 3 =
      some (traceRay emptyScene ⟨0, 0, 0⟩ ⟨0, 0, 1⟩ 1 ⊤ 3) :=
  claim_C9_traceRay_terminates emptyScene 4 ⟨0, 0, 0⟩ ⟨0, 0, 1⟩ 1 ⊤ 3 (by norm_num)

/-- Witness for C10: the source's light list has nonnegative
intensities, so the computed lighting is nonnegative. -/
theorem claim_C10_witness :
    0 ≤ computeLighting emptyScene ⟨0, 0, 0⟩ ⟨0, 0, 1⟩ ⟨0, 0, 1⟩ (-1) :=
  claim_C10_computeLighting_nonneg emptyScene ⟨0, 0, 0⟩ ⟨0, 0, 1⟩ ⟨0, 0, 1⟩ (-1)
    (by
      intro l hl
      simp only [emptyScene, List.mem_cons, List.not_mem_nil, or_false] at hl
      rcases hl with rfl | rfl | rfl <;> norm_num [Light.intensity])

end Raytracer
